import Mathlib

/-!
Verification development for the r2r parameter runtime.

The repository ships only the example `examples/parameters.rs`; the parameter
runtime itself (value type, store, typed accessors, override parsing, handler
task and event broadcaster) lives in the library crate, which is not part of
the sources here.  Each such component is therefore modelled from the design
document (spec.md), faithfully to its words; every definition says so in its
doc comment.
-/

namespace R2R

/-- Modelled from the spec: Double payloads are carried exactly as the
decimal the override text denotes — the number `num / 10 ^ shift`.  The
runtime performs no arithmetic on doubles, only storage and equality, so
this exact representation is faithful. -/
structure Decimal where
  num : Int
  shift : Nat
  deriving DecidableEq

/-- Modelled from the spec: the library's `ParameterValue` tagged union
(spec section 3), whose source is not in the repository snapshot.  Tags:
Bool, Integer, Double, String, ByteArray, BoolArray, IntegerArray,
DoubleArray, StringArray, NotSet. -/
inductive ParameterValue where
  | notSet : ParameterValue
  | bool (b : Bool) : ParameterValue
  | integer (i : Int) : ParameterValue
  | double (d : Decimal) : ParameterValue
  | string (s : String) : ParameterValue
  | byteArray (bs : List Nat) : ParameterValue
  | boolArray (bs : List Bool) : ParameterValue
  | integerArray (xs : List Int) : ParameterValue
  | doubleArray (ds : List Decimal) : ParameterValue
  | stringArray (ss : List String) : ParameterValue
  deriving DecidableEq

instance instDecEqExcept {ε α : Type} [DecidableEq ε] [DecidableEq α] :
    DecidableEq (Except ε α) := fun x y =>
  match x, y with
  | .ok a, .ok b => if h : a = b then isTrue (by rw [h]) else isFalse (by simp [h])
  | .error a, .error b => if h : a = b then isTrue (by rw [h]) else isFalse (by simp [h])
  | .ok _, .error _ => isFalse (by simp)
  | .error _, .ok _ => isFalse (by simp)

/-- Modelled from the spec: the nine value tags a typed accessor can request
(spec sections 3 and 4.4); `NotSet` is not a requestable tag. -/
inductive ParamTag where
  | bool : ParamTag
  | integer : ParamTag
  | double : ParamTag
  | string : ParamTag
  | byteArray : ParamTag
  | boolArray : ParamTag
  | integerArray : ParamTag
  | doubleArray : ParamTag
  | stringArray : ParamTag
  deriving DecidableEq

/-- Modelled from the spec: the tag of a stored value; `none` for `NotSet`
(declared but no value assigned, spec section 7). -/
def tagOf : ParameterValue → Option ParamTag
  | .notSet => none
  | .bool _ => some .bool
  | .integer _ => some .integer
  | .double _ => some .double
  | .string _ => some .string
  | .byteArray _ => some .byteArray
  | .boolArray _ => some .boolArray
  | .integerArray _ => some .integerArray
  | .doubleArray _ => some .doubleArray
  | .stringArray _ => some .stringArray

/-- Modelled from the spec: the error taxonomy of spec section 7, absent from
the repository snapshot. -/
inductive ErrorKind where
  | notSet : ErrorKind
  | notDeclared : ErrorKind
  | typeMismatch : ErrorKind
  | readOnly : ErrorKind
  | malformedOverride : ErrorKind
  | malformedRequest : ErrorKind
  | transportUnavailable : ErrorKind
  deriving DecidableEq

/-- Modelled from the spec: severity classification of spec section 7 —
`MalformedOverride` is the only fatal condition. -/
def isFatal : ErrorKind → Bool
  | .malformedOverride => true
  | _ => false

/-- Modelled from the spec: `ParameterEntry` of spec section 3 — value plus
a read-only flag. -/
structure ParameterEntry where
  value : ParameterValue
  read_only : Bool
  deriving DecidableEq

/-- Modelled from the spec: the `ParameterStore` table (spec section 3), a
name-to-entry mapping, rendered as an association list with unique names. -/
abbrev ParameterStore := List (String × ParameterEntry)

/-- Modelled from the spec: first-match lookup in the store's table. -/
def lookupEntry : ParameterStore → String → Option ParameterEntry
  | [], _ => none
  | p :: rest, n => if p.1 = n then some p.2 else lookupEntry rest n

/-- Modelled from the spec: `get(name)` of spec section 4.1 — snapshot read
of the stored value. -/
def getParam (s : ParameterStore) (n : String) : Option ParameterValue :=
  (lookupEntry s n).map (fun e => e.value)

/-- Modelled from the spec: the strict/permissive declaration policy of spec
section 4.1 (`set` on an undeclared name either fails or auto-declares). -/
inductive DeclarePolicy where
  | strict : DeclarePolicy
  | permissive : DeclarePolicy
  deriving DecidableEq

/-- Modelled from the spec: replace the value of the entry named `n`,
keeping its read-only flag. -/
def updateValue (s : ParameterStore) (n : String) (v : ParameterValue) :
    ParameterStore :=
  s.map (fun p => if p.1 = n then (p.1, ParameterEntry.mk v p.2.read_only) else p)

/-- Modelled from the spec: `set(name, value)` of spec section 4.1 — fails
with ReadOnly on an immutable entry; on an undeclared name fails with
NotDeclared under the strict policy or auto-declares under the permissive
one.  Note the spec gives `set` no TypeMismatch outcome: a set may replace
the stored value with one of a different tag. -/
def setParam (pol : DeclarePolicy) (s : ParameterStore) (n : String)
    (v : ParameterValue) : Except ErrorKind ParameterStore :=
  match lookupEntry s n with
  | some e =>
    if e.read_only then .error .readOnly else .ok (updateValue s n v)
  | none =>
    match pol with
    | .strict => .error .notDeclared
    | .permissive => .ok (s ++ [(n, ParameterEntry.mk v false)])

/-- Modelled from the spec: `list()` of spec section 4.1 — a full copy of the
(name, value) pairs. -/
def listParams (s : ParameterStore) : List (String × ParameterValue) :=
  s.map (fun p => (p.1, p.2.value))

/-- Modelled from the spec: `get_parameter<T>(name)` of spec section 4.4 —
NotDeclared if the name was never declared, NotSet if declared but unset,
TypeMismatch if the stored tag differs from the requested tag, else Ok with
the stored value (returned as stored, never coerced). -/
def get_parameter (T : ParamTag) (s : ParameterStore) (n : String) :
    Except ErrorKind ParameterValue :=
  match lookupEntry s n with
  | none => .error .notDeclared
  | some e =>
    match tagOf e.value with
    | none => .error .notSet
    | some t => if t = T then .ok e.value else .error .typeMismatch

/-- Modelled from the spec: `get_parameter_optional<T>(name)` of spec
section 4.4 — collapses NotDeclared/NotSet to Ok(none); TypeMismatch still
surfaces as an error. -/
def get_parameter_optional (T : ParamTag) (s : ParameterStore) (n : String) :
    Except ErrorKind (Option ParameterValue) :=
  match get_parameter T s n with
  | .ok v => .ok (some v)
  | .error .notDeclared => .ok none
  | .error .notSet => .ok none
  | .error e => .error e

/-- A one-entry demonstration store holding a Double, as set up by the
example's override `key2:=5.5`. -/
def demoStore : ParameterStore :=
  [("serial_interface", ParameterEntry.mk ParameterValue.notSet false),
   ("key2", ParameterEntry.mk (ParameterValue.double (Decimal.mk 55 1)) false)]

/-- Modelled from the spec: split an override string at the first `:=`,
yielding the name part and the literal part (spec section 6 grammar
`name:=literal`). -/
def splitAssign : List Char → Option (List Char × List Char)
  | [] => none
  | ':' :: '=' :: rest => some ([], rest)
  | c :: rest => (splitAssign rest).map (fun p => (c :: p.1, p.2))

/-- Modelled from the spec: split a bracketed array body at the commas
(spec section 6: comma-separated array elements). -/
def splitCommas : List Char → List (List Char)
  | [] => [[]]
  | ',' :: rest => [] :: splitCommas rest
  | c :: rest =>
    match splitCommas rest with
    | [] => [[c]]
    | g :: gs => (c :: g) :: gs

/-- Modelled from the spec: accumulate decimal digits; fails on any
non-digit character. -/
def parseDigitsAux : List Char → Nat → Option Nat
  | [], acc => some acc
  | c :: cs, acc =>
    if c.isDigit then parseDigitsAux cs (acc * 10 + (c.toNat - 48)) else none

/-- Modelled from the spec: a non-empty all-digit token as a natural
number. -/
def parseDigits (cs : List Char) : Option Nat :=
  if cs = [] then none else parseDigitsAux cs 0

/-- Modelled from the spec: an integer literal — optional leading minus
sign, then digits (spec section 6 literal shapes). -/
def parseIntLit : List Char → Option Int
  | '-' :: cs => (parseDigits cs).map (fun v => -(v : Int))
  | cs => (parseDigits cs).map (fun v => (v : Int))

/-- Modelled from the spec: split a token at its dot, failing when there is
no dot or more than one. -/
def splitDot : List Char → Option (List Char × List Char)
  | [] => none
  | '.' :: rest => if rest.contains '.' then none else some ([], rest)
  | c :: rest => (splitDot rest).map (fun p => (c :: p.1, p.2))

/-- Modelled from the spec: an unsigned floating-point literal
`digits.digits`, read exactly as the decimal it denotes. -/
def parseUnsignedDouble (cs : List Char) : Option Decimal :=
  match splitDot cs with
  | none => none
  | some (ip, fp) =>
    match parseDigits ip, parseDigits fp with
    | some i, some f => some (Decimal.mk ((i * 10 ^ fp.length + f : Nat) : Int) fp.length)
    | _, _ => none

/-- Modelled from the spec: a floating-point literal with an optional
leading minus sign (spec section 6 literal shapes). -/
def parseDoubleLit : List Char → Option Decimal
  | '-' :: cs => (parseUnsignedDouble cs).map (fun d => Decimal.mk (-d.num) d.shift)
  | cs => parseUnsignedDouble cs

/-- Modelled from the spec: classify a scalar override literal (spec
section 6): a boolean, an integer, a floating-point number, else a bare
string; a stray bracket character is an unmatched bracket and therefore
malformed, and an empty token matches no shape. -/
def parseScalarLit (cs : List Char) : Except ErrorKind ParameterValue :=
  if cs = "true".toList then .ok (.bool true)
  else if cs = "false".toList then .ok (.bool false)
  else
    match parseIntLit cs with
    | some i => .ok (.integer i)
    | none =>
      match parseDoubleLit cs with
      | some d => .ok (.double d)
      | none =>
        if cs = [] then .error .malformedOverride
        else if cs.contains '[' ∨ cs.contains ']' then .error .malformedOverride
        else .ok (.string (String.mk cs))

/-- Modelled from the spec: payload projections used to check that a parsed
array is homogeneous (spec section 6: homogeneous array of scalars). -/
def asBool : ParameterValue → Option Bool
  | .bool b => some b
  | _ => none

/-- Integer payload projection, for array homogeneity. -/
def asInt : ParameterValue → Option Int
  | .integer i => some i
  | _ => none

/-- Double payload projection, for array homogeneity. -/
def asDouble : ParameterValue → Option Decimal
  | .double d => some d
  | _ => none

/-- String payload projection, for array homogeneity. -/
def asString : ParameterValue → Option String
  | .string s => some s
  | _ => none

/-- Modelled from the spec: pack a list of scalar values into the matching
homogeneous array value; a heterogeneous list matches no literal shape and
is malformed (spec section 6). -/
def homogenize (vs : List ParameterValue) : Except ErrorKind ParameterValue :=
  match vs.mapM asBool with
  | some bs => .ok (.boolArray bs)
  | none =>
    match vs.mapM asInt with
    | some xs => .ok (.integerArray xs)
    | none =>
      match vs.mapM asDouble with
      | some ds => .ok (.doubleArray ds)
      | none =>
        match vs.mapM asString with
        | some ss => .ok (.stringArray ss)
        | none => .error .malformedOverride

/-- Modelled from the spec: an override literal (spec section 6): either a
bracketed comma-separated homogeneous array — an opening bracket without its
closing bracket is malformed — or a scalar. -/
def parseLiteral (cs : List Char) : Except ErrorKind ParameterValue :=
  match cs with
  | '[' :: rest =>
    match rest.getLast? with
    | some ']' =>
      match (splitCommas rest.dropLast).mapM parseScalarLit with
      | .ok vs => homogenize vs
      | .error e => .error e
    | _ => .error .malformedOverride
  | _ => parseScalarLit cs

/-- Modelled from the spec: one startup override `name:=literal` (spec
section 6); a missing `:=`, an empty name or an unrecognized literal shape
is a MalformedOverride. -/
def parseOverride (s : String) : Except ErrorKind (String × ParameterValue) :=
  match splitAssign s.toList with
  | none => .error .malformedOverride
  | some (n, lit) =>
    if n = [] then .error .malformedOverride
    else (parseLiteral lit).map (fun v => (String.mk n, v))

/-- Modelled from the spec: an override takes precedence over a declared
default, declaring the name when it is not yet present (spec section 6 and
the lifecycle of section 3). -/
def overrideSet (s : ParameterStore) (n : String) (v : ParameterValue) :
    ParameterStore :=
  match lookupEntry s n with
  | some _ => updateValue s n v
  | none => s ++ [(n, ParameterEntry.mk v false)]

/-- Modelled from the spec: apply the startup override list to the declared
defaults; the first malformed override aborts startup with its error (spec
sections 6 and 7: fatal, no silent fallback to the default). -/
def applyOverrides (s : ParameterStore) : List String → Except ErrorKind ParameterStore
  | [] => .ok s
  | o :: os =>
    match parseOverride o with
    | .error e => .error e
    | .ok (n, v) => applyOverrides (overrideSet s n v) os

/-- Modelled from the spec: one item of a batched `PendingRequest` (spec
section 3): a Get, a Set carrying a typed payload, a List restricted to the
requested names (all when none are given), or a malformed item — an inbound
payload whose shape is not recognized (spec section 7, MalformedRequest). -/
inductive ReqItem where
  | get (n : String) : ReqItem
  | set (n : String) (v : ParameterValue) : ReqItem
  | listNames (ns : List String) : ReqItem
  | malformed : ReqItem
  deriving DecidableEq

/-- Modelled from the spec: the per-item outcome of a Response (spec
section 3): Applied with the value, the List result, or Rejected with an
error kind. -/
inductive Outcome where
  | applied (v : ParameterValue) : Outcome
  | listed (kvs : List (String × ParameterValue)) : Outcome
  | rejected (e : ErrorKind) : Outcome
  deriving DecidableEq

/-- Modelled from the spec: observable steps of the handler relevant to the
event stream — a Set item committing to the store, and the matching
ChangeEvent being emitted to the broadcaster (spec sections 4.2 and 4.3). -/
inductive TraceEv where
  | commit (n : String) (v : ParameterValue) : TraceEv
  | emit (n : String) (v : ParameterValue) : TraceEv
  deriving DecidableEq

/-- Modelled from the spec: the ParameterHandler's per-item processing (spec
section 4.2): Get reads the store and yields Applied(value) or
Rejected(NotSet/NotDeclared); Set calls the store's set and on success
yields Applied(new value), committing then emitting a ChangeEvent; List
copies the table filtered to the requested names; a malformed item yields
Rejected(MalformedRequest) and touches nothing. -/
def processItem (pol : DeclarePolicy) (s : ParameterStore) :
    ReqItem → ParameterStore × Outcome × List TraceEv
  | .get n =>
    match getParam s n with
    | none => (s, .rejected .notDeclared, [])
    | some .notSet => (s, .rejected .notSet, [])
    | some v => (s, .applied v, [])
  | .set n v =>
    match setParam pol s n v with
    | .ok t => (t, .applied v, [.commit n v, .emit n v])
    | .error e => (s, .rejected e, [])
  | .listNames ns =>
    (s, .listed (if ns = [] then listParams s
      else (listParams s).filter (fun p => ns.contains p.1)), [])
  | .malformed => (s, .rejected .malformedRequest, [])

/-- Modelled from the spec: the handler drains a batch item by item, each
item atomically applied before the next, assembling one outcome per item in
request order and concatenating the observable trace (spec section 4.2). -/
def processBatch (pol : DeclarePolicy) (s : ParameterStore) :
    List ReqItem → ParameterStore × List Outcome × List TraceEv
  | [] => (s, [], [])
  | it :: its =>
    ((processBatch pol (processItem pol s it).1 its).1,
     (processItem pol s it).2.1 ::
       (processBatch pol (processItem pol s it).1 its).2.1,
     (processItem pol s it).2.2 ++
       (processBatch pol (processItem pol s it).1 its).2.2)

/-- The (name, value) pairs a single consumer of the event stream observes,
in trace order (spec section 4.3). -/
def emittedPairs (tr : List TraceEv) : List (String × ParameterValue) :=
  tr.filterMap (fun ev =>
    match ev with
    | .emit n v => some (n, v)
    | _ => none)

/-- The (name, value) pairs of the Set items that committed, in commit
order. -/
def committedPairs (tr : List TraceEv) : List (String × ParameterValue) :=
  tr.filterMap (fun ev =>
    match ev with
    | .commit n v => some (n, v)
    | _ => none)

/-- Whether a trace step is a ChangeEvent emission. -/
def isEmit : TraceEv → Bool
  | .emit _ _ => true
  | _ => false

/-- Whether a trace step is a Set item committing. -/
def isCommit : TraceEv → Bool
  | .commit _ _ => true
  | _ => false

theorem lookupEntry_updateValue (s : ParameterStore) (n : String)
    (v : ParameterValue) (e : ParameterEntry) (h : lookupEntry s n = some e) :
    lookupEntry (updateValue s n v) n = some (ParameterEntry.mk v e.read_only) := by
  induction s with
  | nil => simp [lookupEntry] at h
  | cons p rest ih =>
    by_cases hp : p.1 = n
    · simp [lookupEntry, hp] at h
      simp [updateValue, lookupEntry, hp, h]
    · simp [lookupEntry, hp] at h
      simpa [updateValue, lookupEntry, hp] using ih h

theorem lookupEntry_append_of_none (s l : ParameterStore) (n : String)
    (h : lookupEntry s n = none) :
    lookupEntry (s ++ l) n = lookupEntry l n := by
  induction s with
  | nil => simp
  | cons p rest ih =>
    by_cases hp : p.1 = n
    · simp [lookupEntry, hp] at h
    · simp only [lookupEntry, hp, if_false] at h
      simpa [lookupEntry, hp] using ih h

/-- C1: the typed accessor `get_parameter<T>(n)` returns Err(NotDeclared)
when `n` was never declared, Err(NotSet) when declared but without a value,
Err(TypeMismatch) when the stored tag differs from `T`, and Ok with exactly
the stored value otherwise; an Ok value is the stored one with tag `T`,
never a coercion. -/
theorem get_parameter_correct (T : ParamTag) (s : ParameterStore) (n : String) :
    (lookupEntry s n = none → get_parameter T s n = .error .notDeclared) ∧
    (∀ e, lookupEntry s n = some e → tagOf e.value = none →
      get_parameter T s n = .error .notSet) ∧
    (∀ e t, lookupEntry s n = some e → tagOf e.value = some t → t ≠ T →
      get_parameter T s n = .error .typeMismatch) ∧
    (∀ e, lookupEntry s n = some e → tagOf e.value = some T →
      get_parameter T s n = .ok e.value) ∧
    (∀ v, get_parameter T s n = .ok v →
      getParam s n = some v ∧ tagOf v = some T) := by
  refine ⟨?_, ?_, ?_, ?_, ?_⟩
  · intro h; simp [get_parameter, h]
  · intro e he ht; simp [get_parameter, he, ht]
  · intro e t he ht hT; simp [get_parameter, he, ht, hT]
  · intro e he ht; simp [get_parameter, he, ht]
  · intro v hv
    cases he : lookupEntry s n with
    | none => simp [get_parameter, he] at hv
    | some e =>
      cases ht : tagOf e.value with
      | none => simp [get_parameter, he, ht] at hv
      | some t =>
        by_cases hT : t = T
        · have hv' : e.value = v := by
            simpa [get_parameter, he, ht, hT] using hv
          subst hv'
          exact ⟨by simp [getParam, he], by rw [ht, hT]⟩
        · simp [get_parameter, he, ht, hT] at hv

/-- Witness for C1 on concrete stores: a Double entry read at tag Integer
gives TypeMismatch, at tag Double gives the stored value; an unset entry
gives NotSet; an undeclared name gives NotDeclared. -/
theorem get_parameter_correct_witness :
    get_parameter ParamTag.integer demoStore "key2" =
      .error .typeMismatch ∧
    get_parameter ParamTag.double demoStore "key2" =
      .ok (ParameterValue.double (Decimal.mk 55 1)) ∧
    get_parameter ParamTag.string demoStore "serial_interface" =
      .error .notSet ∧
    get_parameter ParamTag.integer demoStore "baud_rate" =
      .error .notDeclared := by
  refine ⟨?_, ?_, ?_, ?_⟩
  · exact (get_parameter_correct ParamTag.integer demoStore "key2").2.2.1
      (ParameterEntry.mk (ParameterValue.double (Decimal.mk 55 1)) false) ParamTag.double
      (by decide) (by decide) (by decide)
  · exact (get_parameter_correct ParamTag.double demoStore "key2").2.2.2.1
      (ParameterEntry.mk (ParameterValue.double (Decimal.mk 55 1)) false)
      (by decide) (by decide)
  · exact (get_parameter_correct ParamTag.string demoStore "serial_interface").2.1
      (ParameterEntry.mk ParameterValue.notSet false) (by decide) (by decide)
  · exact (get_parameter_correct ParamTag.integer demoStore "baud_rate").1 (by decide)

/-- C2: a successful `set(n, v)` immediately followed by `get(n)` returns
exactly `v`, for every value `v` of any tag (empty arrays included) and
under either declaration policy. -/
theorem set_get_roundtrip (pol : DeclarePolicy) (s s' : ParameterStore)
    (n : String) (v : ParameterValue)
    (h : setParam pol s n v = Except.ok s') :
    getParam s' n = some v := by
  cases he : lookupEntry s n with
  | some e =>
    by_cases hr : e.read_only = true
    · simp [setParam, he, hr] at h
    · have h' : updateValue s n v = s' := by
        simpa [setParam, he, hr] using h
      subst h'
      simp [getParam, lookupEntry_updateValue s n v e he]
  | none =>
    cases pol with
    | strict => simp [setParam, he] at h
    | permissive =>
      have h' : s ++ [(n, ParameterEntry.mk v false)] = s' := by
        simpa [setParam, he] using h
      subst h'
      simp [getParam, lookupEntry_append_of_none s _ n he, lookupEntry]

/-- Witness for C2: setting an empty StringArray on a fresh name under the
permissive policy, then reading it back, returns the empty StringArray. -/
theorem set_get_roundtrip_witness :
    setParam DeclarePolicy.permissive [] "k" (ParameterValue.stringArray []) =
      Except.ok [("k", ParameterEntry.mk (ParameterValue.stringArray []) false)] ∧
    getParam [("k", ParameterEntry.mk (ParameterValue.stringArray []) false)] "k" =
      some (ParameterValue.stringArray []) :=
  ⟨by decide,
   set_get_roundtrip DeclarePolicy.permissive []
     [("k", ParameterEntry.mk (ParameterValue.stringArray []) false)] "k"
     (ParameterValue.stringArray []) (by decide)⟩

/-- C3: the optional typed accessor returns Ok(none) when the name is
undeclared or declared-but-unset, Err(TypeMismatch) when the stored tag
differs from the requested one, Ok(some v) with the stored value otherwise;
NotDeclared and NotSet never surface as errors from the optional form. -/
theorem get_parameter_optional_correct (T : ParamTag) (s : ParameterStore)
    (n : String) :
    (lookupEntry s n = none → get_parameter_optional T s n = .ok none) ∧
    (∀ e, lookupEntry s n = some e → tagOf e.value = none →
      get_parameter_optional T s n = .ok none) ∧
    (∀ e t, lookupEntry s n = some e → tagOf e.value = some t → t ≠ T →
      get_parameter_optional T s n = .error .typeMismatch) ∧
    (∀ e, lookupEntry s n = some e → tagOf e.value = some T →
      get_parameter_optional T s n = .ok (some e.value)) ∧
    (∀ err, get_parameter_optional T s n = .error err → err = .typeMismatch) := by
  refine ⟨?_, ?_, ?_, ?_, ?_⟩
  · intro h; simp [get_parameter_optional, get_parameter, h]
  · intro e he ht; simp [get_parameter_optional, get_parameter, he, ht]
  · intro e t he ht hT; simp [get_parameter_optional, get_parameter, he, ht, hT]
  · intro e he ht; simp [get_parameter_optional, get_parameter, he, ht]
  · intro err herr
    cases he : lookupEntry s n with
    | none => simp [get_parameter_optional, get_parameter, he] at herr
    | some e =>
      cases ht : tagOf e.value with
      | none => simp [get_parameter_optional, get_parameter, he, ht] at herr
      | some t =>
        by_cases hT : t = T
        · simp [get_parameter_optional, get_parameter, he, ht, hT] at herr
        · have h' : ErrorKind.typeMismatch = err := by
            simpa [get_parameter_optional, get_parameter, he, ht, hT] using herr
          exact h'.symm

/-- Witness for C3 on concrete stores: Ok(none) for an undeclared name and
for an unset entry, TypeMismatch for a Double read at tag Integer, and
Ok(some value) for a matching tag. -/
theorem get_parameter_optional_correct_witness :
    get_parameter_optional ParamTag.integer demoStore "baud_rate" = .ok none ∧
    get_parameter_optional ParamTag.string demoStore "serial_interface" = .ok none ∧
    get_parameter_optional ParamTag.integer demoStore "key2" =
      .error .typeMismatch ∧
    get_parameter_optional ParamTag.double demoStore "key2" =
      .ok (some (ParameterValue.double (Decimal.mk 55 1))) := by
  refine ⟨?_, ?_, ?_, ?_⟩
  · exact (get_parameter_optional_correct ParamTag.integer demoStore "baud_rate").1
      (by decide)
  · exact (get_parameter_optional_correct ParamTag.string demoStore
      "serial_interface").2.1 (ParameterEntry.mk ParameterValue.notSet false)
      (by decide) (by decide)
  · exact (get_parameter_optional_correct ParamTag.integer demoStore "key2").2.2.1
      (ParameterEntry.mk (ParameterValue.double (Decimal.mk 55 1)) false) ParamTag.double
      (by decide) (by decide) (by decide)
  · exact (get_parameter_optional_correct ParamTag.double demoStore "key2").2.2.2.1
      (ParameterEntry.mk (ParameterValue.double (Decimal.mk 55 1)) false)
      (by decide) (by decide)

/-- C4: the override `key1:=[hello,world]` parses to the StringArray
["hello", "world"] stored under key1, and `key2:=5.5` parses to the Double
5.5 (the decimal 55/10) stored under key2. -/
theorem override_parse_examples :
    parseOverride "key1:=[hello,world]" =
      .ok ("key1", ParameterValue.stringArray ["hello", "world"]) ∧
    parseOverride "key2:=5.5" =
      .ok ("key2", ParameterValue.double (Decimal.mk 55 1)) := by
  exact ⟨by decide, by decide⟩

/-- C7: an override whose literal matches no recognized shape (here an
unmatched bracket) makes startup fail with MalformedOverride — whatever the
declared defaults and whatever overrides would follow, no store is produced
— and MalformedOverride is the only error kind classified fatal. -/
theorem malformed_override_fatality (s : ParameterStore) (os : List String) :
    applyOverrides s ("key:=[1,2" :: os) = .error .malformedOverride ∧
    (isFatal .malformedOverride = true ∧ isFatal .notSet = false ∧
     isFatal .notDeclared = false ∧ isFatal .typeMismatch = false ∧
     isFatal .readOnly = false ∧ isFatal .malformedRequest = false ∧
     isFatal .transportUnavailable = false) := by
  constructor
  · have h : parseOverride "key:=[1,2" = .error .malformedOverride := by decide
    simp [applyOverrides, h]
  · decide

/-- The store right after startup with the example override `key2:=5.5`. -/
def key2Store : ParameterStore :=
  [("key2", ParameterEntry.mk (ParameterValue.double (Decimal.mk 55 1)) false)]

/-- The same store after the external `ros2 param set /demo/my_node key2
false` commits. -/
def key2StoreAfter : ParameterStore :=
  [("key2", ParameterEntry.mk (ParameterValue.bool false) false)]

/-- C9: an externally-submitted Set may replace a stored value with one of a
different tag: after startup stores Double 5.5 under key2, the handler
applies Set key2 = Bool false with outcome Applied — not Rejected
(TypeMismatch) — and a subsequent get returns Bool false. -/
theorem external_set_changes_tag :
    applyOverrides [] ["key2:=5.5"] = .ok key2Store ∧
    processItem DeclarePolicy.strict key2Store
        (ReqItem.set "key2" (ParameterValue.bool false)) =
      (key2StoreAfter, Outcome.applied (ParameterValue.bool false),
       [TraceEv.commit "key2" (ParameterValue.bool false),
        TraceEv.emit "key2" (ParameterValue.bool false)]) ∧
    getParam key2StoreAfter "key2" = some (ParameterValue.bool false) := by
  refine ⟨by decide, by decide, by decide⟩

theorem processBatch_length (pol : DeclarePolicy) (s : ParameterStore)
    (its : List ReqItem) :
    ((processBatch pol s its).2.1).length = its.length := by
  induction its generalizing s with
  | nil => rfl
  | cons it its ih => simp [processBatch, ih]

theorem processBatch_append (pol : DeclarePolicy) (s : ParameterStore)
    (l1 l2 : List ReqItem) :
    processBatch pol s (l1 ++ l2) =
      ((processBatch pol (processBatch pol s l1).1 l2).1,
       (processBatch pol s l1).2.1 ++
         (processBatch pol (processBatch pol s l1).1 l2).2.1,
       (processBatch pol s l1).2.2 ++
         (processBatch pol (processBatch pol s l1).1 l2).2.2) := by
  induction l1 generalizing s with
  | nil => simp [processBatch]
  | cons it l1 ih => simp [processBatch, ih]

/-- C6: in every batch, a malformed item produces a Rejected outcome for
that item only: the response has exactly one outcome per request item in
request order (first conjunct), and a batch `pre ++ [malformed] ++ post`
yields the outcomes of `pre`, then the single Rejected(MalformedRequest),
then the outcomes of `post` processed from the very store `pre` left behind
— the malformed item aborts nothing and perturbs neither store nor event
trace (second conjunct). -/
theorem malformed_item_isolation (pol : DeclarePolicy) (s : ParameterStore)
    (pre post : List ReqItem) :
    (∀ its : List ReqItem, ((processBatch pol s its).2.1).length = its.length) ∧
    processBatch pol s (pre ++ ReqItem.malformed :: post) =
      ((processBatch pol (processBatch pol s pre).1 post).1,
       (processBatch pol s pre).2.1 ++
         Outcome.rejected ErrorKind.malformedRequest ::
           (processBatch pol (processBatch pol s pre).1 post).2.1,
       (processBatch pol s pre).2.2 ++
         (processBatch pol (processBatch pol s pre).1 post).2.2) := by
  constructor
  · intro its
    exact processBatch_length pol s its
  · rw [processBatch_append]
    simp [processBatch, processItem]

theorem trace_pair_props (n : String) (v : ParameterValue) :
    emittedPairs [TraceEv.commit n v, TraceEv.emit n v] =
      committedPairs [TraceEv.commit n v, TraceEv.emit n v] ∧
    ∀ k : Nat,
      (([TraceEv.commit n v, TraceEv.emit n v].take k).countP isEmit) ≤
        (([TraceEv.commit n v, TraceEv.emit n v].take k).countP isCommit) := by
  constructor
  · simp [emittedPairs, committedPairs]
  · intro k
    match k with
    | 0 => simp
    | 1 => simp [isEmit, isCommit]
    | Nat.succ (Nat.succ m) => simp [isEmit, isCommit]

theorem trace_concat_props (tr1 tr2 : List TraceEv)
    (h1e : emittedPairs tr1 = committedPairs tr1)
    (h1p : ∀ k, (tr1.take k).countP isEmit ≤ (tr1.take k).countP isCommit)
    (h2e : emittedPairs tr2 = committedPairs tr2)
    (h2p : ∀ k, (tr2.take k).countP isEmit ≤ (tr2.take k).countP isCommit) :
    emittedPairs (tr1 ++ tr2) = committedPairs (tr1 ++ tr2) ∧
    ∀ k, ((tr1 ++ tr2).take k).countP isEmit ≤
      ((tr1 ++ tr2).take k).countP isCommit := by
  constructor
  · simp only [emittedPairs, committedPairs] at h1e h2e ⊢
    rw [List.filterMap_append, List.filterMap_append, h1e, h2e]
  · intro k
    rw [List.take_append_eq_append_take, List.countP_append, List.countP_append]
    exact Nat.add_le_add (h1p k) (h2p _)

theorem processItem_trace_props (pol : DeclarePolicy) (s : ParameterStore)
    (it : ReqItem) :
    emittedPairs (processItem pol s it).2.2 =
      committedPairs (processItem pol s it).2.2 ∧
    ∀ k : Nat, (((processItem pol s it).2.2).take k).countP isEmit ≤
      (((processItem pol s it).2.2).take k).countP isCommit := by
  cases it with
  | get n =>
    cases h : getParam s n with
    | none => simp [processItem, h, emittedPairs, committedPairs]
    | some v => cases v <;> simp [processItem, h, emittedPairs, committedPairs]
  | set n v =>
    cases h : setParam pol s n v with
    | ok t =>
      have hp := trace_pair_props n v
      simpa [processItem, h] using hp
    | error e => simp [processItem, h, emittedPairs, committedPairs]
  | listNames ns => simp [processItem, emittedPairs, committedPairs]
  | malformed => simp [processItem, emittedPairs, committedPairs]

/-- C5: for a single consumer of the event stream, over any processed
sequence of items: the (name, value) ChangeEvents observed are exactly the
(name, value) pairs of the committed Set items, in commit order (first
conjunct); and each event is emitted strictly after its Set item commits —
rendered as: in every prefix of the observable trace the number of
emissions never exceeds the number of commits, which together with the
first conjunct places the i-th emission strictly after the i-th commit
(second conjunct). -/
theorem event_stream_order (pol : DeclarePolicy) (s : ParameterStore)
    (its : List ReqItem) :
    emittedPairs (processBatch pol s its).2.2 =
      committedPairs (processBatch pol s its).2.2 ∧
    ∀ k : Nat,
      (((processBatch pol s its).2.2).take k).countP isEmit ≤
        (((processBatch pol s its).2.2).take k).countP isCommit := by
  induction its generalizing s with
  | nil => exact ⟨rfl, fun k => by simp [processBatch]⟩
  | cons it its ih =>
    have hi := processItem_trace_props pol s it
    have hr := ih (processItem pol s it).1
    have hc := trace_concat_props _ _ hi.1 hi.2 hr.1 hr.2
    simpa [processBatch] using hc

theorem mem_listParams_name (rest : ParameterStore) (nm : String)
    (vv : ParameterValue) (h : (nm, vv) ∈ listParams rest) :
    nm ∈ rest.map Prod.fst := by
  induction rest with
  | nil => simp [listParams] at h
  | cons q qs ih =>
    rw [show listParams (q :: qs) = (q.1, q.2.value) :: listParams qs from rfl,
      List.mem_cons] at h
    cases h with
    | inl h0 =>
      simp only [Prod.mk.injEq] at h0
      simp [h0.1]
    | inr h1 => simp [ih h1]

theorem listParams_mem_iff (s : ParameterStore)
    (hnd : (s.map Prod.fst).Nodup) (nm : String) (vv : ParameterValue) :
    (nm, vv) ∈ listParams s ↔ getParam s nm = some vv := by
  induction s with
  | nil => simp [listParams, getParam, lookupEntry]
  | cons p rest ih =>
    simp only [List.map_cons, List.nodup_cons] at hnd
    obtain ⟨hp, hrest⟩ := hnd
    by_cases hpn : p.1 = nm
    · subst hpn
      rw [show listParams (p :: rest) = (p.1, p.2.value) :: listParams rest from rfl,
        List.mem_cons]
      rw [show getParam (p :: rest) p.1 = some p.2.value from by
        simp [getParam, lookupEntry]]
      constructor
      · rintro (h0 | h1)
        · simp only [Prod.mk.injEq] at h0
          rw [h0.2]
        · exact absurd (mem_listParams_name rest p.1 vv h1) hp
      · intro h0
        simp only [Option.some.injEq] at h0
        exact Or.inl (by rw [h0])
    · rw [show listParams (p :: rest) = (p.1, p.2.value) :: listParams rest from rfl,
        List.mem_cons]
      rw [show getParam (p :: rest) nm = getParam rest nm from by
        simp [getParam, lookupEntry, hpn]]
      constructor
      · rintro (h0 | h1)
        · exact absurd ((by simpa using congrArg Prod.fst h0 : nm = p.1)).symm hpn
        · exact (ih hrest).mp h1
      · intro hg
        exact Or.inr ((ih hrest).mpr hg)

/-- Modelled from the spec: the store-lock events an operation makes
observable (spec sections 3 and 5: a short-held exclusive lock guards every
table access). -/
inductive LockEv where
  | acquire : LockEv
  | release : LockEv
  deriving DecidableEq

/-- Modelled from the spec: `list()` as executed against the locked store
(spec sections 4.1 and 9): acquire the lock once, copy the (name, value)
pairs while holding it, release; the owned copy is what the caller
receives. -/
def listLocked (s : ParameterStore) :
    List LockEv × List (String × ParameterValue) :=
  ([LockEv.acquire, LockEv.release], listParams s)

/-- Modelled from the spec: application code iterating the returned copy
(spec section 9: callers receive copies across the boundary, never live
references) — the iteration itself touches no lock. -/
def iterateCopy (kvs : List (String × ParameterValue)) :
    List LockEv × List (String × ParameterValue) :=
  ([], kvs)

/-- C8: `list()` performs exactly one lock acquisition, during which it
takes a full copy of the (name, value) pairs — for a well-formed store
(unique names) the copy holds precisely the pairs `get` would report — and
iterating the returned copy performs no lock operation at all, so it cannot
block a concurrent writer. -/
theorem list_single_lock_snapshot (s : ParameterStore)
    (hnd : (s.map Prod.fst).Nodup) :
    (listLocked s).1.count LockEv.acquire = 1 ∧
    (listLocked s).1 = [LockEv.acquire, LockEv.release] ∧
    (∀ nm vv, (nm, vv) ∈ (listLocked s).2 ↔ getParam s nm = some vv) ∧
    (iterateCopy (listLocked s).2).1 = [] ∧
    (iterateCopy (listLocked s).2).2 = listParams s := by
  refine ⟨rfl, rfl, ?_, rfl, rfl⟩
  intro nm vv
  exact listParams_mem_iff s hnd nm vv

/-- Witness for C8: the demonstration store has unique names, and the
theorem applies to it. -/
theorem list_single_lock_snapshot_witness :
    ((demoStore.map Prod.fst).Nodup) ∧
    ((listLocked demoStore).1.count LockEv.acquire = 1 ∧
     (listLocked demoStore).1 = [LockEv.acquire, LockEv.release] ∧
     (∀ nm vv, (nm, vv) ∈ (listLocked demoStore).2 ↔
       getParam demoStore nm = some vv) ∧
     (iterateCopy (listLocked demoStore).2).1 = [] ∧
     (iterateCopy (listLocked demoStore).2).2 = listParams demoStore) :=
  ⟨by decide, list_single_lock_snapshot demoStore (by decide)⟩

/-- Modelled from the spec: the node state the example exercises — the
parameter store plus whether `make_parameter_handler` has been called; the
handler is optional and made at most once per node (examples/parameters.rs
lines 39-43 and spec section 4.4). -/
structure Node where
  store : ParameterStore
  handler_created : Bool
  deriving DecidableEq

/-- Modelled from the spec: `Node::get_parameter::<T>` is a synchronous read
of the store, callable at any time by any owner of a store reference (spec
section 4.4); it does not involve the handler. -/
def node_get_parameter (T : ParamTag) (nd : Node) (n : String) :
    Except ErrorKind ParameterValue :=
  get_parameter T nd.store n

/-- Modelled from the spec: the optional form, likewise a pure store read
(spec section 4.4). -/
def node_get_parameter_optional (T : ParamTag) (nd : Node) (n : String) :
    Except ErrorKind (Option ParameterValue) :=
  get_parameter_optional T nd.store n

/-- Modelled from the spec: `make_parameter_handler` (example lines 39-43:
"make a parameter handler (once per node); the parameter handler is
optional"): succeeds exactly once, marking the handler as created, and
fails on a node that already made one. -/
def make_parameter_handler (nd : Node) : Option Node :=
  if nd.handler_created then none else some (Node.mk nd.store true)

/-- C10: the parameter handler is optional and created at most once per
node: the typed accessors compute exactly the store-level accessors, their
results do not depend on whether a handler was ever created, and
`make_parameter_handler` succeeds on a fresh node but fails the second
time. -/
theorem accessors_independent_of_handler (s : ParameterStore) (T : ParamTag)
    (n : String) :
    node_get_parameter T (Node.mk s false) n = get_parameter T s n ∧
    node_get_parameter_optional T (Node.mk s false) n =
      get_parameter_optional T s n ∧
    (∀ b : Bool, node_get_parameter T (Node.mk s b) n =
      node_get_parameter T (Node.mk s false) n) ∧
    (∀ b : Bool, node_get_parameter_optional T (Node.mk s b) n =
      node_get_parameter_optional T (Node.mk s false) n) ∧
    make_parameter_handler (Node.mk s false) = some (Node.mk s true) ∧
    make_parameter_handler (Node.mk s true) = none := by
  refine ⟨rfl, rfl, fun b => rfl, fun b => rfl, ?_, ?_⟩
  · simp [make_parameter_handler]
  · simp [make_parameter_handler]

end R2R
